import Mathlib

/-!
Verification development for the db_tools core of the sberindex_dashboard
repository: a shallow embedding, in Lean 4, of the connection-configuration
resolver (`db_tools/resolver.py`), the legacy connection pool
(`db_tools/connection_pool_legacy.py`), the DDL manager
(`db_tools/schema_manager.py`) and the schema compatibility checker
(`db_tools/schema_validator.py`), together with theorems settling the
specification claims about those components.

Modelling conventions: the process environment is an association list from
variable names to values; network reachability is an oracle parameter;
statement execution is an oracle from statement text to an optional error
message; machine integers are `Int`/`Nat`; Python floats are modelled as `ℚ`
(the score formulas are transcriptions of the arithmetic expressions in the
source); fallible code returns `Except`/`Option`.
-/

/-! ## Python-style string primitives shared by the embeddings -/

/-- Substring containment on character lists (Python's `sub in s`). -/
def listHasSubstr (needle : List Char) : List Char → Bool
  | [] => needle.isEmpty
  | c :: cs => needle.isPrefixOf (c :: cs) || listHasSubstr needle cs

/-- Python's `sub in s` on strings. -/
def strContains (s sub : String) : Bool :=
  listHasSubstr sub.data s.data

/-- Remove leading and trailing runs of the character `c` (Python `str.strip(c)`). -/
def stripCharList (c : Char) (cs : List Char) : List Char :=
  ((cs.dropWhile (fun x => x = c)).reverse.dropWhile (fun x => x = c)).reverse

/-- Python `str.strip(c)` for a single strip character. -/
def stripChar (c : Char) (s : String) : String :=
  String.mk (stripCharList c s.data)

/-- Python's default whitespace set for `str.strip()`. -/
def isPySpace (c : Char) : Bool :=
  c = ' ' || c = '\t' || c = '\n' || c = '\r' || c = '\x0b' || c = '\x0c'

/-- Python `str.strip()` (kernel-reducible replacement for `String.trim`). -/
def pyStrip (s : String) : String :=
  String.mk (((s.data.dropWhile isPySpace).reverse.dropWhile isPySpace).reverse)

/-- `str.startswith(pre)`. -/
def strStartsWith (s pre : String) : Bool :=
  pre.data.isPrefixOf s.data

/-- `str.endswith(suf)`. -/
def strEndsWith (s suf : String) : Bool :=
  suf.data.isSuffixOf s.data

/-- ASCII lower-casing of one character. -/
def asciiLower (c : Char) : Char :=
  if 'A' ≤ c && c ≤ 'Z' then Char.ofNat (c.toNat + 32) else c

/-- `str.lower()` (ASCII; the strings the code compares are ASCII). -/
def strToLower (s : String) : String :=
  String.mk (s.data.map asciiLower)

/-- Split a character list on a separator character (Python `str.split(sep)`). -/
def splitOnChar (sep : Char) : List Char → List (List Char)
  | [] => [[]]
  | c :: rest =>
    match splitOnChar sep rest with
    | [] => if c = sep then [[], []] else [[c]]
    | h :: t => if c = sep then [] :: h :: t else (c :: h) :: t

/-- `content.split('\n')`. -/
def splitLinesStr (s : String) : List String :=
  (splitOnChar '\n' s.data).map String.mk

/-- `'\n'.join(lines)`. -/
def joinLines (lines : List String) : String :=
  String.mk (List.intercalate ['\n'] (lines.map String.data))

/-- `line.split('--')[0]`: the characters before the first `--`. -/
def takeBeforeDashDash : List Char → List Char
  | [] => []
  | '-' :: '-' :: _ => []
  | c :: rest => c :: takeBeforeDashDash rest

/-- A non-empty all-digit run read as a number. -/
def parseDigits (cs : List Char) : Option Nat :=
  if cs.isEmpty then none
  else
    cs.foldl
      (fun acc? c =>
        acc?.bind (fun acc =>
          if c.isDigit then some (acc * 10 + (c.toNat - '0'.toNat)) else none))
      (some 0)

/-- Python `int(s)` on a string: surrounding whitespace stripped, an optional
sign, then decimal digits; anything else raises `ValueError` (`none`). -/
def pyInt (s : String) : Option Int :=
  match (pyStrip s).data with
  | '-' :: rest => (parseDigits rest).map (fun n => -(n : Int))
  | '+' :: rest => (parseDigits rest).map (fun n => (n : Int))
  | cs => (parseDigits cs).map (fun n => (n : Int))

namespace Resolver

/-! ## db_tools/resolver.py -/

/-- The process environment, as seen through `os.environ.get`. -/
abbrev Env := List (String × String)

/-- `os.environ.get(k)`: first binding of `k`, if any. -/
def envGet (env : Env) (k : String) : Option String :=
  (env.find? (fun p => p.1 == k)).map (fun p => p.2)

/-- Python `os.environ.get(k1) or os.environ.get(k2)`: the first operand wins
unless it is falsy (`None` or the empty string). -/
def envGetOr (env : Env) (k1 k2 : String) : Option String :=
  match envGet env k1 with
  | some s => if s = "" then envGet env k2 else some s
  | none => envGet env k2

/-- Python truthiness of an optional string: `None` and `""` are falsy. -/
def truthy : Option String → Bool
  | some s => s != ""
  | none => false

/-- `EnvironmentType` from resolver.py. -/
inductive EnvironmentType where
  | docker_compose
  | docker_host
  | local_host
  | ci_cd
  | unknown
deriving DecidableEq, Repr

/-- `ConnectionConfig` dataclass from resolver.py. -/
structure ConnectionConfig where
  host : String
  port : Int
  database : String
  user : String
  password : String
  environment : EnvironmentType
  connection_string : String
deriving DecidableEq, Repr

/-- Builds a `ConnectionConfig`, recomputing `connection_string` as
`__post_init__` does. -/
def mkConnectionConfig (host : String) (port : Int) (database user password : String)
    (environment : EnvironmentType) : ConnectionConfig :=
  { host := host, port := port, database := database, user := user,
    password := password, environment := environment,
    connection_string :=
      "postgresql://" ++ user ++ ":" ++ password ++ "@" ++ host ++ ":"
        ++ toString port ++ "/" ++ database }

/-- `ConnectionConfigResolver._get_env_config`: reads the five fields, each
under two accepted names; if the whole tuple is truthy, converts the port with
`int(...)` (`pyInt`; raising on a non-numeric string is modelled as `Except.error`)
and returns the config verbatim, otherwise reports the tier as incomplete. -/
def get_env_config (env : Env) (environment : EnvironmentType) :
    Except String (Option ConnectionConfig) :=
  let host := envGetOr env "DB_HOST" "POSTGRES_HOST"
  let port := envGetOr env "DB_PORT" "POSTGRES_PORT"
  let database := envGetOr env "DB_NAME" "POSTGRES_DB"
  let user := envGetOr env "DB_USER" "POSTGRES_USER"
  let password := envGetOr env "DB_PASSWORD" "POSTGRES_PASSWORD"
  if truthy host && truthy port && truthy database && truthy user && truthy password then
    match pyInt (port.getD "") with
    | some p =>
        .ok (some (mkConnectionConfig (host.getD "") p (database.getD "")
          (user.getD "") (password.getD "") environment))
    | none => .error "ValueError: invalid literal for int()"
  else
    .ok none

/-- `ConnectionConfigResolver._get_environment_defaults`: the ordered candidate
tuples keyed by the classified environment. -/
def get_environment_defaults (environment : EnvironmentType) : List ConnectionConfig :=
  match environment with
  | .docker_compose =>
      ["postgres", "db", "database", "postgresql"].map
        (fun h => mkConnectionConfig h 5432 "platform" "postgres" "postgres" .docker_compose)
  | .docker_host =>
      ["host.docker.internal", "host-gateway", "gateway.docker.internal"].map
        (fun h => mkConnectionConfig h 5432 "platform" "postgres" "postgres" .docker_host)
  | .local_host =>
      ["localhost", "127.0.0.1"].map
        (fun h => mkConnectionConfig h 5432 "platform" "postgres" "postgres" .local_host)
  | .ci_cd =>
      [mkConnectionConfig "localhost" 5432 "platform" "postgres" "postgres" .ci_cd]
  | .unknown => []

/-- `ConnectionConfigResolver._get_fallback_config`. -/
def get_fallback_config : ConnectionConfig :=
  mkConnectionConfig "localhost" 5432 "platform" "postgres" "postgres" .unknown

/-- Tier 2 and tier 3 of `get_database_config`: probe each candidate with
`_test_connection_host` (the `reach` oracle) in order, returning the first
reachable candidate, else the static fallback.  The second component records
the `(host, port)` probes performed, in order. -/
def probe_defaults (reach : String → Int → Bool) :
    List ConnectionConfig → ConnectionConfig × List (String × Int)
  | [] => (get_fallback_config, [])
  | c :: rest =>
    if reach c.host c.port then (c, [(c.host, c.port)])
    else
      let r := probe_defaults reach rest
      (r.1, (c.host, c.port) :: r.2)

/-- `ConnectionConfigResolver.get_database_config`: priority 1 environment
variables (no probing), priority 2 environment-specific candidates probed in
order, priority 3 static fallback.  Returns the chosen config together with
the list of reachability probes performed. -/
def get_database_config (env : Env) (environment : EnvironmentType)
    (reach : String → Int → Bool) :
    Except String (ConnectionConfig × List (String × Int)) :=
  match get_env_config env environment with
  | .error e => .error e
  | .ok (some c) => .ok (c, [])
  | .ok none => .ok (probe_defaults reach (get_environment_defaults environment))

/-- The five explicit connection fields with their two accepted variable names. -/
def fieldNamePairs : List (String × String) :=
  [("DB_HOST", "POSTGRES_HOST"), ("DB_PORT", "POSTGRES_PORT"),
   ("DB_NAME", "POSTGRES_DB"), ("DB_USER", "POSTGRES_USER"),
   ("DB_PASSWORD", "POSTGRES_PASSWORD")]

/-! ### `_parse_env_file` (manual `.env` parser) -/

/-- Split a line at its first `=` (Python `line.split('=', 1)` when `'=' in line`). -/
def splitFirstEq : List Char → Option (List Char × List Char)
  | [] => none
  | '=' :: rest => some ([], rest)
  | c :: rest =>
    match splitFirstEq rest with
    | some (k, v) => some (c :: k, v)
    | none => none

/-- The value normalisation `value.strip().strip('"').strip("'")`. -/
def stripValueQuotes (s : String) : String :=
  stripChar '\'' (stripChar '"' (pyStrip s))

/-- One iteration of the `_parse_env_file` loop over one raw file line,
updating the process environment: strip the line; skip empty lines, comment
lines, and lines containing a shell-expansion marker; otherwise parse
`KEY=VALUE`, normalise the value, and set the variable only when not already
present in the environment. -/
def parse_env_line (osEnv : Env) (rawLine : String) : Env :=
  let line := pyStrip rawLine
  if line = "" || strStartsWith line "#" then osEnv
  else if strContains line "$\x7b" || strContains line "$(" then osEnv
  else
    match splitFirstEq line.data with
    | some (k, v) =>
        let key := pyStrip (String.mk k)
        let value := stripValueQuotes (String.mk v)
        if envGet osEnv key = none then osEnv ++ [(key, value)] else osEnv
    | none => osEnv

/-- `ConnectionConfigResolver._parse_env_file`, folded over the file's lines. -/
def parse_env_file (fileLines : List String) (osEnv : Env) : Env :=
  fileLines.foldl parse_env_line osEnv

end Resolver

namespace Pool

/-! ## db_tools/connection_pool_legacy.py -/

/-- The retrying loop of `ConnectionPool.execute_with_retry`.  The operation
is an oracle from the attempt index (0-based) to a result or an exception.
`remaining` counts the attempts still allowed, `attempt` is the current index
and `last` the last captured exception (`None` before the first attempt, as in
the Python local `last_exception = None`).  Returns the outcome — the
operation's result, or the raised `last_exception` (which is `none` exactly
when the loop body never ran) — together with the list of back-off sleeps
performed, in order. -/
def execute_with_retry_aux {E A : Type} (op : Nat → Except E A) (delay : ℚ) :
    Nat → Nat → Option E → Except (Option E) A × List ℚ
  | 0, _, last => (.error last, [])
  | r + 1, attempt, _ =>
    match op attempt with
    | .ok a => (.ok a, [])
    | .error e =>
      if r = 0 then (.error (some e), [])
      else
        let next := execute_with_retry_aux op delay r (attempt + 1) (some e)
        (next.1, delay * 2 ^ attempt :: next.2)

/-- `ConnectionPool.execute_with_retry` with `retry_attempts = attempts` and
`retry_delay = delay`: runs the operation up to `attempts` times, sleeping
`delay * 2 ^ attempt` after each failed attempt other than the last, and
re-raises the last failure after exhausting all attempts. -/
def execute_with_retry {E A : Type} (op : Nat → Except E A) (attempts : Nat)
    (delay : ℚ) : Except (Option E) A × List ℚ :=
  execute_with_retry_aux op delay attempts 0 none

end Pool

namespace SchemaManager

/-! ## db_tools/schema_manager.py -/

/-- Observable actions of `DDLManager.__init__`. -/
inductive InitEvent where
  | poolInit
  | sqlDirectoryCheck
deriving DecidableEq, Repr

/-- `DDLManager.__init__` as a trace semantics over the two pieces of state
the claims mention.  The constructor body runs, in order:
`self.db_manager = DatabaseManager(connection_params)` — whose
`ConnectionPool._initialize_pool` opens the pool's minimum number of
database connections over the network (`psycopg2.pool.ThreadedConnectionPool`
connects eagerly) — and then `self._validate_sql_directory()`, which raises
`FileNotFoundError` when the directory is missing or holds no `*ddl*.sql`
file.  Pool construction is assumed to succeed (the claims concern the
configuration-error path); the trace lists the constructor's actions in
program order, all of which precede any raise from the directory check. -/
def ddl_manager_init (sqlDirectoryExists hasDdlFiles : Bool) :
    Except String Unit × List InitEvent :=
  let events := [InitEvent.poolInit, InitEvent.sqlDirectoryCheck]
  if !sqlDirectoryExists then
    (.error "SQL directory not found", events)
  else if !hasDdlFiles then
    (.error "No DDL files found", events)
  else
    (.ok (), events)

/-! ### `_split_sql_statements` -/

/-- The dollar-quote tracking state: `in_dollar_block` and `dollar_tag`
(`none` models Python's `None`). -/
structure DollarState where
  in_dollar_block : Bool
  dollar_tag : Option String
deriving DecidableEq, Repr

/-- The scan collecting `dollar_positions`: Python walks the line with
`i`, appending the index and jumping two characters on each `"$$"` it sees,
else advancing one. -/
def dollarPositionsAux : List Char → Nat → List Nat
  | '$' :: '$' :: rest, i => i :: dollarPositionsAux rest (i + 2)
  | _ :: rest, i => dollarPositionsAux rest (i + 1)
  | [], _ => []

/-- Positions of the (non-overlapping) `$$` digraphs of a line. -/
def dollarPositions (cs : List Char) : List Nat :=
  dollarPositionsAux cs 0

/-- `line.find('$$', start)` — first (overlapping) occurrence of `$$` at an
index `≥ start`, scanning from position `i`. -/
def findDollarFromAux : List Char → Nat → Option Nat
  | '$' :: '$' :: _, i => some i
  | _ :: rest, i => findDollarFromAux rest (i + 1)
  | [], _ => none

/-- `line.find('$$', start)`, as an `Option` index. -/
def findDollarFrom (cs : List Char) (start : Nat) : Option Nat :=
  (findDollarFromAux (cs.drop start) 0).map (· + start)

/-- The substring `line[a:b]`. -/
def sliceStr (cs : List Char) (a b : Nat) : String :=
  String.mk ((cs.drop a).take (b - a))

/-- The per-position body of the dollar-quote loop: on an opening `$$` the
tag is the text up to the next `$$` on the same line (empty when there is
none); on a potential close, the block closes only when the analogously
computed closing tag equals the stored tag. -/
def processDollarPos (cs : List Char) (st : DollarState) (pos : Nat) : DollarState :=
  if !st.in_dollar_block then
    let tag :=
      match findDollarFrom cs (pos + 2) with
      | some tagEnd => sliceStr cs (pos + 2) tagEnd
      | none => ""
    { in_dollar_block := true, dollar_tag := some tag }
  else
    let closing :=
      match findDollarFrom cs (pos + 2) with
      | some tagEnd => sliceStr cs (pos + 2) tagEnd
      | none => ""
    if st.dollar_tag = some closing then
      { in_dollar_block := false, dollar_tag := none }
    else st

/-- The `'$$' in line` branch: fold the dollar-quote loop over the line's
dollar positions. -/
def processLineDollars (line : List Char) (st : DollarState) : DollarState :=
  (dollarPositions line).foldl (processDollarPos line) st

/-- One line of `_clean_inline_comments`: strip the line, drop it when empty
or a `--` comment line, cut a trailing `--` comment only when the line holds
no quote character, and drop the line when nothing remains. -/
def cleanCommentLine (line : String) : Option String :=
  let l := pyStrip line
  if l != "" && !strStartsWith l "--" then
    let l2 :=
      if strContains l "--" && !(strContains l "'" || strContains l "\"") then
        pyStrip (String.mk (takeBeforeDashDash l.data))
      else l
    if l2 != "" then some l2 else none
  else none

/-- `DDLManager._clean_inline_comments`. -/
def clean_inline_comments (statement : String) : String :=
  let cleanLines := (splitLinesStr statement).filterMap cleanCommentLine
  if cleanLines.isEmpty then "" else joinLines cleanLines

/-- Accumulator of the `_split_sql_statements` line loop. -/
structure SplitState where
  statements : List String
  current_statement : String
  dollar : DollarState
deriving DecidableEq, Repr

/-- Appends `current` (stripped) to the statement list exactly when the code
does: non-empty, not starting with `--` or `/*`, and non-empty after
`_clean_inline_comments`. -/
def appendStatement (statements : List String) (current : String) : List String :=
  let stmt := pyStrip current
  if stmt != "" && !strStartsWith stmt "--" && !strStartsWith stmt "/*" then
    let cleaned := clean_inline_comments stmt
    if cleaned != "" then statements ++ [cleaned] else statements
  else statements

/-- The body of the `_split_sql_statements` loop for one line: skip blank and
comment lines (still accumulating them into a pending statement); update the
dollar-quote state when the line contains `$$`; accumulate the line; and
recognise a statement boundary only when the stripped line ends in `;` while
not inside a dollar block. -/
def processSplitLine (st : SplitState) (line : String) : SplitState :=
  let stripped := pyStrip line
  if stripped = "" || strStartsWith stripped "--" then
    if pyStrip st.current_statement != "" then
      { st with current_statement := st.current_statement ++ line ++ "\n" }
    else st
  else
    let d :=
      if strContains line "$$" then processLineDollars line.data st.dollar
      else st.dollar
    let cur := st.current_statement ++ line ++ "\n"
    if !d.in_dollar_block && strEndsWith stripped ";" then
      { statements := appendStatement st.statements cur,
        current_statement := "", dollar := d }
    else
      { statements := st.statements, current_statement := cur, dollar := d }

/-- `DDLManager._split_sql_statements`: fold the loop over the content's
lines, then flush any remaining content as a final statement. -/
def split_sql_statements (ddlContent : String) : List String :=
  let init : SplitState :=
    { statements := [], current_statement := "",
      dollar := { in_dollar_block := false, dollar_tag := none } }
  let st := (splitLinesStr ddlContent).foldl processSplitLine init
  if pyStrip st.current_statement != "" then
    appendStatement st.statements st.current_statement
  else st.statements

/-! ### `execute_ddl` -/

/-- Per-statement outcome, as the spec's tagged variant.  The kinds name the
benign branches of the error classification in `execute_ddl`; the final
`else` branch ("Error encountered but continuing") is `failed`. -/
inductive StatementOutcome where
  | applied
  | skippedBenign (kind : String)
  | failed (reason : String)
deriving DecidableEq, Repr

/-- Whether an outcome is a (non-benign) failure. -/
def StatementOutcome.isFailed : StatementOutcome → Bool
  | .failed _ => true
  | _ => false

/-- Whether an outcome is `applied`. -/
def StatementOutcome.isApplied : StatementOutcome → Bool
  | .applied => true
  | _ => false

/-- The error-classification ladder of `execute_ddl`, in branch order, over
the lowercased error string (`str(stmt_error).lower()`) and the statement
text.  Every branch `continue`s in the source; the classification drives only
the log severity, which the outcome records. -/
def classifyStatementError (statement errStr : String) : StatementOutcome :=
  if strContains errStr "does not exist" && strContains errStr "relation" then
    .skippedBenign "relation dependency"
  else if strContains errStr "already exists" then
    .skippedBenign "already exists"
  else if strContains (strToLower statement) "if not exists" then
    .skippedBenign "idempotent"
  else if strContains errStr "duplicate" then
    .skippedBenign "duplicate"
  else if strContains errStr "cannot run inside a transaction" || strContains (strToLower errStr) "vacuum" then
    .skippedBenign "vacuum in transaction"
  else if strContains errStr "syntax error" || strContains errStr "unterminated" then
    .skippedBenign "syntax issue"
  else if strContains errStr "current transaction" && strContains errStr "aborted" then
    .skippedBenign "aborted transaction"
  else
    .failed errStr

/-- Result of `execute_ddl`, restricted to the fields the claims speak about
(timing, row counts and metadata are omitted).  `outcomes` records one entry
per executed statement, in order. -/
structure DDLExecutionResult where
  success : Bool
  errors : List String
  outcomes : List StatementOutcome
deriving DecidableEq, Repr

/-- The statement loop body of `execute_ddl`: every non-blank statement is
executed (`exec` is the cursor oracle: `none` on success, `some e` for an
exception with message `e`); on an exception the error message is appended to
`errors` *before* the classification ladder runs, and execution continues in
every branch. -/
def executeDdlStep (exec : String → Option String)
    (acc : List String × List StatementOutcome) (statement : String) :
    List String × List StatementOutcome :=
  if pyStrip statement != "" then
    match exec statement with
    | none => (acc.1, acc.2 ++ [.applied])
    | some e =>
        (acc.1 ++ ["Statement failed: " ++ e],
         acc.2 ++ [classifyStatementError statement (strToLower e)])
  else acc

/-- `DDLManager.execute_ddl` over the abstract cursor: split the content,
run every statement, collect errors, and report `success` exactly when the
collected `errors` list is empty. -/
def execute_ddl (exec : String → Option String) (ddlContent : String) :
    DDLExecutionResult :=
  let statements := split_sql_statements ddlContent
  let res := statements.foldl (executeDdlStep exec) ([], [])
  { success := res.1.isEmpty, errors := res.1, outcomes := res.2 }

/-! ### `get_ddl_files` and `create_all_tables` ordering -/

/-- `Path.stem`: the filename without its final suffix. -/
def stemOf (filename : String) : String :=
  let parts := splitOnChar '.' filename.data
  if parts.length ≤ 1 then filename
  else String.mk (List.intercalate ['.'] parts.dropLast)

/-- The platform inferred from the filename stem, in the source's branch
order. -/
def platformOf (stem : String) : String :=
  if strContains stem "steam" then "steam"
  else if strContains stem "sony" then "sony"
  else if strContains stem "epic" then "epic"
  else if strContains stem "gog" then "gog"
  else if strContains stem "nintendo" then "nintendo"
  else if strContains stem "xbox" then "xbox"
  else "generic"

/-- The M17 execution-order table for the split steam DDL files. -/
def executionOrderOf (filename : String) : Option Nat :=
  if filename = "steam_ddl_api.sql" then some 0
  else if filename = "steam_ddl_file.sql" then some 1
  else none

/-- `f"{order:02d}"`. -/
def pad2 (n : Nat) : String :=
  if n < 10 then "0" ++ toString n else toString n

/-- Whether a filename matches one of the glob patterns
`*ddl*.sql`, `*_ddl.sql`, `l0_*.sql`, `l1_*.sql`. -/
def matchesDdlPattern (filename : String) : Bool :=
  (strContains filename "ddl" && strEndsWith filename ".sql")
    || strEndsWith filename "_ddl.sql"
    || (strStartsWith filename "l0_" && strEndsWith filename ".sql")
    || (strStartsWith filename "l1_" && strEndsWith filename ".sql")

/-- Python `dict` insertion: overwrite the binding in place, else append. -/
def dictInsert (l : List (String × String)) (k v : String) : List (String × String) :=
  match l with
  | [] => [(k, v)]
  | (k', v') :: rest =>
    if k' = k then (k, v) :: rest else (k', v') :: dictInsert rest k v

/-- Whether a key is bound. -/
def dictHasKey (l : List (String × String)) (k : String) : Bool :=
  l.any (fun p => p.1 == k)

/-- The body of the `get_ddl_files` file loop: skip the deprecated monolithic
`steam_ddl.sql` when a split file exists on disk, skip the merged
`steam_file_dimensions_ddl.sql` when `steam_ddl_file.sql` exists, then file
the path under `platform_layer_NN_stem` when the filename carries an M17
execution order, else under `platform_layer` (first non-`optimized` file
wins for a repeated legacy key).  `allFiles` is the directory listing used by
the on-disk existence checks. -/
def getDdlFilesStep (allFiles : List String)
    (acc : List (String × String)) (filename : String) : List (String × String) :=
  if filename = "steam_ddl.sql"
      && (allFiles.contains "steam_ddl_api.sql" || allFiles.contains "steam_ddl_file.sql") then
    acc
  else if filename = "steam_file_dimensions_ddl.sql"
      && allFiles.contains "steam_ddl_file.sql" then
    acc
  else
    let stem := stemOf filename
    let platform := platformOf stem
    let layer := if strContains stem "l1" then "l1" else "l0"
    match executionOrderOf filename with
    | some order =>
        dictInsert acc (platform ++ "_" ++ layer ++ "_" ++ pad2 order ++ "_" ++ stem) filename
    | none =>
        let key := platform ++ "_" ++ layer
        if dictHasKey acc key && !strContains stem "optimized" then acc
        else dictInsert acc key filename

/-- `DDLManager.get_ddl_files` over a directory listing: filter the listing
through the glob patterns, de-duplicate (Python iterates `set(found_files)`;
the listing order stands in for the set's iteration order), and fold the file
loop.  Returns the key → filename map as an association list. -/
def get_ddl_files (allFiles : List String) : List (String × String) :=
  ((allFiles.filter matchesDdlPattern).dedup).foldl (getDdlFilesStep allFiles) []

/-- Lexicographic order on character lists (Python string `<` by code point). -/
def charListLt : List Char → List Char → Bool
  | [], [] => false
  | [], _ :: _ => true
  | _ :: _, [] => false
  | a :: as, b :: bs => if a < b then true else if b < a then false else charListLt as bs

/-- Python string comparison `a < b` (kernel-reducible replacement for `String.lt`). -/
def strLt (a b : String) : Bool :=
  charListLt a.data b.data

/-- Stable insertion into a key-sorted list (`x` goes before the first entry
whose key is not smaller than `x`'s). -/
def insertByKey (x : String × String) : List (String × String) → List (String × String)
  | [] => [x]
  | y :: ys => if strLt y.1 x.1 then y :: insertByKey x ys else x :: y :: ys

/-- Ascending stable sort by key — `sorted(ddl_files.items(), key=lambda x: x[0])`. -/
def sortByKey (l : List (String × String)) : List (String × String) :=
  l.foldr insertByKey []

/-- The execution order of `DDLManager.create_all_tables`: the
`(key, filename)` pairs of `get_ddl_files`, sorted by key ascending; the
files are then loaded and executed in exactly this order. -/
def create_all_tables_order (allFiles : List String) : List (String × String) :=
  sortByKey (get_ddl_files allFiles)

end SchemaManager

namespace SchemaValidator

/-! ## db_tools/schema_validator.py -/

/-- `ValidationSeverity`. -/
inductive Severity where
  | info
  | warning
  | error
  | critical
deriving DecidableEq, Repr

/-- `ValidationIssue` (metadata omitted). -/
structure ValidationIssue where
  severity : Severity
  category : String
  message : String
  table_name : String
  column_name : Option String := none
  expected_value : Option String := none
  actual_value : Option String := none
deriving DecidableEq, Repr

/-- One live column as read from `information_schema.columns` (the fields the
checker consults). -/
structure ColumnInfo where
  name : String
  data_type : String
deriving DecidableEq, Repr

/-- One entry of `ORCHESTRATOR_REQUIREMENTS[platform][table]`. -/
structure TableRequirements where
  required_columns : List String
  optional_columns : List String
  column_types : List (String × String)
  business_rules : List String
deriving DecidableEq, Repr

/-- `ValidationReport` (metadata omitted; the score is a rational transcription
of the float expression). -/
structure ValidationReport where
  table_name : String
  valid : Bool
  issues : List ValidationIssue
  compatibility_score : ℚ
  missing_columns : List String
  extra_columns : List String
  type_mismatches : List (String × String × String)
deriving DecidableEq, Repr

/-- `OrchestratorCompatibilityChecker._types_compatible`: normalise, direct
match, shared alias group, then the numeric/decimal fallback. -/
def types_compatible (expected actual : String) : Bool :=
  let e := pyStrip (strToLower expected)
  let a := pyStrip (strToLower actual)
  if e = a then true
  else
    let groups : List (List String) :=
      [["bigserial", "int8", "bigint"],
       ["int", "int4", "serial", "integer"],
       ["varchar", "character varying", "text", "character"],
       ["timestamptz", "timestamp with time zone"],
       ["timestamp", "timestamp without time zone"],
       ["json", "jsonb"],
       ["decimal", "numeric"],
       ["date"]]
    if groups.any (fun g => g.contains e && g.contains a) then true
    else if strContains e "numeric" || strContains e "decimal" then
      strContains a "numeric" || strContains a "decimal"
    else false

/-- `\w` of the rule regex. -/
def isWordChar (c : Char) : Bool :=
  c.isAlphanum || c = '_'

/-- `re.search(r"(\w+) should be '([^']+)'", rule)`: scan left to right; a
match starts at a word character whose maximal word run is followed by the
literal `" should be '"` and a non-empty quote-delimited value. -/
def shouldBeSearch : List Char → Option (String × String)
  | [] => none
  | c :: rest =>
    if isWordChar c then
      let run := (c :: rest).takeWhile isWordChar
      let after := (c :: rest).dropWhile isWordChar
      if (" should be '").data.isPrefixOf after then
        let tail := after.drop (" should be '").length
        let v := tail.takeWhile (fun x => x ≠ '\'')
        let rest2 := tail.dropWhile (fun x => x ≠ '\'')
        if !v.isEmpty && !rest2.isEmpty then some (String.mk run, String.mk v)
        else shouldBeSearch rest
      else shouldBeSearch rest
    else shouldBeSearch rest

/-- `OrchestratorCompatibilityChecker._validate_business_rule`: the closed set
of textual predicates, producing the issues the branch appends. -/
def validate_business_rule (tableName rule : String) (columns : List ColumnInfo) :
    List ValidationIssue :=
  let rl := strToLower rule
  if strContains rl "payload must contain" then
    match columns.find? (fun c => c.name == "payload") with
    | none =>
        [{ severity := .error, category := "business_rule",
           message := "Business rule violation: " ++ rule,
           table_name := tableName, column_name := some "payload" }]
    | some col =>
        if col.data_type ≠ "jsonb" then
          [{ severity := .warning, category := "business_rule",
             message := "Payload column should be JSONB for rule: " ++ rule,
             table_name := tableName, column_name := some "payload" }]
        else []
  else if strContains rl "should follow" && strContains rl "pattern" then
    [{ severity := .info, category := "business_rule",
       message := "Pattern rule requires data validation: " ++ rule,
       table_name := tableName }]
  else if strContains rl "should be" then
    match shouldBeSearch rule.data with
    | some (col, v) =>
        [{ severity := .info, category := "business_rule",
           message := "Default value rule for " ++ col ++ ": " ++ v,
           table_name := tableName, column_name := some col,
           expected_value := some v }]
    | none => []
  else []

/-- The type-mismatch loop: for every `(column, expected type)` requirement
whose column exists in the live table, record a mismatch when the live type is
not compatible. -/
def typeMismatchesOf (columnTypes : List (String × String)) (columns : List ColumnInfo) :
    List (String × String × String) :=
  columnTypes.foldl
    (fun acc p =>
      match columns.find? (fun c => c.name == p.1) with
      | some col =>
          if !types_compatible p.2 col.data_type then acc ++ [(p.1, p.2, col.data_type)]
          else acc
      | none => acc)
    []

/-- The main path of `check_table_compatibility` (requirements defined and
table found): missing required columns (error issues), missing optional
columns (info), extra columns (warning), type mismatches (error), business
rules, the weighted compatibility score, and
`valid = no critical issues ∧ no missing required columns`. -/
def checkCompatibilityMain (tableName : String) (req : TableRequirements)
    (columns : List ColumnInfo) : ValidationReport :=
  let actualNames := columns.map (fun c => c.name)
  let requiredSet := req.required_columns.dedup
  let optionalSet := req.optional_columns.dedup
  let missingColumns := requiredSet.filter (fun c => !actualNames.contains c)
  let missingIssues := missingColumns.map (fun c =>
    { severity := .error, category := "missing_column",
      message := "Required column '" ++ c ++ "' is missing",
      table_name := tableName, column_name := some c : ValidationIssue })
  let missingOptional := optionalSet.filter (fun c => !actualNames.contains c)
  let optionalIssues := missingOptional.map (fun c =>
    { severity := .info, category := "missing_optional_column",
      message := "Optional column '" ++ c ++ "' is missing",
      table_name := tableName, column_name := some c : ValidationIssue })
  let extraColumns := actualNames.dedup.filter
    (fun c => !(requiredSet.contains c || optionalSet.contains c))
  let extraIssues := extraColumns.map (fun c =>
    { severity := .warning, category := "extra_column",
      message := "Unexpected column '" ++ c ++ "' found",
      table_name := tableName, column_name := some c : ValidationIssue })
  let typeMismatches := typeMismatchesOf req.column_types columns
  let typeIssues := typeMismatches.map (fun t =>
    { severity := .error, category := "type_mismatch",
      message := "Column '" ++ t.1 ++ "' type mismatch",
      table_name := tableName, column_name := some t.1,
      expected_value := some t.2.1, actual_value := some t.2.2 : ValidationIssue })
  let ruleIssues := req.business_rules.foldl
    (fun acc r => acc ++ validate_business_rule tableName r columns) []
  let issues := missingIssues ++ optionalIssues ++ extraIssues ++ typeIssues ++ ruleIssues
  let totalRequired := requiredSet.length
  let missingRequired := (missingColumns.filter (fun c => requiredSet.contains c)).length
  let typeErrors := typeMismatches.length
  let score : ℚ :=
    if totalRequired > 0 then
      ((totalRequired : ℚ) - (missingRequired : ℚ)) / (totalRequired : ℚ) * (7 / 10)
        + max 0 (1 - (typeErrors : ℚ) * (1 / 5)) * (3 / 10)
    else 1
  let criticalIssues := issues.filter (fun i => i.severity == Severity.critical)
  { table_name := tableName,
    valid := criticalIssues.isEmpty && missingColumns.isEmpty,
    issues := issues,
    compatibility_score := score,
    missing_columns := missingColumns,
    extra_columns := extraColumns,
    type_mismatches := typeMismatches }

/-- `OrchestratorCompatibilityChecker.check_table_compatibility`.  The
requirements lookup and the live-schema query are the two `Option` inputs:
`none` requirements is the "no compatibility requirements defined" early
return (valid, score 1), `none` schema is the "table does not exist" early
return (critical issue, invalid, score 0). -/
def check_table_compatibility (tableName : String)
    (requirements : Option TableRequirements)
    (actualSchema : Option (List ColumnInfo)) : ValidationReport :=
  match requirements with
  | none =>
      { table_name := tableName, valid := true,
        issues := [{ severity := .warning, category := "compatibility",
                     message := "No compatibility requirements defined",
                     table_name := tableName }],
        compatibility_score := 1, missing_columns := [], extra_columns := [],
        type_mismatches := [] }
  | some req =>
      match actualSchema with
      | none =>
          { table_name := tableName, valid := false,
            issues := [{ severity := .critical, category := "existence",
                         message := "Table " ++ tableName ++ " does not exist",
                         table_name := tableName }],
            compatibility_score := 0,
            missing_columns := req.required_columns, extra_columns := [],
            type_mismatches := [] }
      | some columns => checkCompatibilityMain tableName req columns

end SchemaValidator

open Resolver Pool SchemaManager SchemaValidator

/-! ## Claim theorems -/

theorem envGetOr_eq_none {env : Env} {k1 k2 : String}
    (h1 : envGet env k1 = some "") (h2 : envGet env k2 = none) :
    envGetOr env k1 k2 = none := by
  simp [envGetOr, h1, h2]

/-- C5: for every environment supplying all five explicit connection
variables (each non-empty, under either accepted naming convention) with a
parseable port, `get_database_config` returns exactly those values verbatim —
the returned config is built from the five environment values — and the probe
list is empty: no reachability probing is performed. -/
theorem c5_explicit_env_vars_verbatim
    (env : Env) (environment : EnvironmentType) (reach : String → Int → Bool)
    (h p d u pw : String) (pn : Int)
    (hh : envGetOr env "DB_HOST" "POSTGRES_HOST" = some h) (hh0 : h ≠ "")
    (hp : envGetOr env "DB_PORT" "POSTGRES_PORT" = some p) (hp0 : p ≠ "")
    (hd : envGetOr env "DB_NAME" "POSTGRES_DB" = some d) (hd0 : d ≠ "")
    (hu : envGetOr env "DB_USER" "POSTGRES_USER" = some u) (hu0 : u ≠ "")
    (hw : envGetOr env "DB_PASSWORD" "POSTGRES_PASSWORD" = some pw) (hw0 : pw ≠ "")
    (hpn : pyInt p = some pn) :
    get_database_config env environment reach =
      .ok (mkConnectionConfig h pn d u pw environment, []) := by
  simp [get_database_config, get_env_config, hh, hp, hd, hu, hw, truthy,
    hh0, hp0, hd0, hu0, hw0, hpn]

/-- C5 witness: a concrete environment using a mix of the two naming
conventions resolves verbatim with no probes, even though every host would be
reachable. -/
theorem c5_witness :
    get_database_config
      [("POSTGRES_HOST", "h1"), ("DB_PORT", "6000"), ("DB_NAME", "db1"),
       ("POSTGRES_USER", "u1"), ("DB_PASSWORD", "pw1")]
      EnvironmentType.ci_cd (fun _ _ => true) =
      .ok (mkConnectionConfig "h1" 6000 "db1" "u1" "pw1" EnvironmentType.ci_cd, []) :=
  c5_explicit_env_vars_verbatim _ _ _ "h1" "6000" "db1" "u1" "pw1" 6000
    (by decide) (by decide) (by decide) (by decide) (by decide) (by decide)
    (by decide) (by decide) (by decide) (by decide) (by decide)

/-- C10: when one of the five explicit connection variables is set to the
empty string and its alias is unset, the explicit tier is incomplete (the
empty string is never used verbatim), and `get_database_config` falls through
to environment-specific candidate probing and then the static fallback. -/
theorem c10_empty_explicit_var_falls_through
    (env : Env) (environment : EnvironmentType) (reach : String → Int → Bool)
    (prim aliasName : String)
    (hmem : (prim, aliasName) ∈ fieldNamePairs)
    (hprim : envGet env prim = some "")
    (halias : envGet env aliasName = none) :
    get_env_config env environment = .ok none ∧
    get_database_config env environment reach =
      .ok (probe_defaults reach (get_environment_defaults environment)) := by
  have hnone := envGetOr_eq_none hprim halias
  have hmain : get_env_config env environment = .ok none := by
    simp only [fieldNamePairs, List.mem_cons, List.mem_singleton,
      Prod.mk.injEq, List.not_mem_nil, or_false] at hmem
    rcases hmem with ⟨rfl, rfl⟩ | ⟨rfl, rfl⟩ | ⟨rfl, rfl⟩ | ⟨rfl, rfl⟩ | ⟨rfl, rfl⟩ <;>
      simp [get_env_config, hnone, truthy]
  exact ⟨hmain, by simp [get_database_config, hmain]⟩

/-- C10 witness: with `DB_HOST` empty and `POSTGRES_HOST` unset, the resolver
probes the docker-compose candidates in order and settles on the first
reachable one. -/
theorem c10_witness :
    get_env_config
      [("DB_HOST", ""), ("DB_PORT", "5433"), ("DB_NAME", "d"),
       ("DB_USER", "u"), ("DB_PASSWORD", "p")] EnvironmentType.docker_compose =
      .ok none ∧
    get_database_config
      [("DB_HOST", ""), ("DB_PORT", "5433"), ("DB_NAME", "d"),
       ("DB_USER", "u"), ("DB_PASSWORD", "p")] EnvironmentType.docker_compose
      (fun h _ => h == "db") =
      .ok (probe_defaults (fun h _ => h == "db")
        (get_environment_defaults EnvironmentType.docker_compose)) :=
  c10_empty_explicit_var_falls_through _ _ _ "DB_HOST" "POSTGRES_HOST"
    (by decide) (by decide) (by decide)

theorem envGet_append_of_some {env env2 : Env} {k v : String}
    (h : envGet env k = some v) : envGet (env ++ env2) k = some v := by
  unfold envGet at *
  cases hf : env.find? (fun p => p.1 == k) with
  | none => simp [hf] at h
  | some p => rw [List.find?_append, hf]; simpa [hf] using h

theorem parse_env_line_preserves (osEnv : Env) (rawLine : String) (k v : String)
    (h : envGet osEnv k = some v) :
    envGet (parse_env_line osEnv rawLine) k = some v := by
  unfold parse_env_line
  dsimp only
  split_ifs with h1 h2
  · exact h
  · exact h
  · cases hsplit : splitFirstEq (pyStrip rawLine).data with
    | none => simpa [hsplit] using h
    | some kv =>
      simp only [hsplit]
      split_ifs with h3
      · exact envGet_append_of_some h
      · exact h

/-- C6: the manual `.env` parser sets `FOO` to `bar` from the line
`FOO="bar"` (surrounding quotes stripped) when `FOO` is not yet set; skips
entirely any line containing a `${...}`-style or `$(...)`-style expansion
marker; skips empty lines and `#` comment lines; and never overwrites a
variable already present in the process environment. -/
theorem c6_env_file_parsing :
    (∀ osEnv : Env, envGet osEnv "FOO" = none →
        parse_env_line osEnv "FOO=\"bar\"" = osEnv ++ [("FOO", "bar")]) ∧
    (∀ (osEnv : Env) (line : String),
        (strContains (pyStrip line) "$\x7b" || strContains (pyStrip line) "$(") = true →
        parse_env_line osEnv line = osEnv) ∧
    (∀ (osEnv : Env) (line : String),
        pyStrip line = "" ∨ strStartsWith (pyStrip line) "#" = true →
        parse_env_line osEnv line = osEnv) ∧
    (∀ (fileLines : List String) (osEnv : Env) (k v : String),
        envGet osEnv k = some v →
        envGet (parse_env_file fileLines osEnv) k = some v) := by
  refine ⟨?_, ?_, ?_, ?_⟩
  · intro osEnv h
    show (if envGet osEnv "FOO" = none then osEnv ++ [("FOO", "bar")] else osEnv) =
      osEnv ++ [("FOO", "bar")]
    rw [if_pos h]
  · intro osEnv line h
    unfold parse_env_line
    dsimp only
    by_cases h1 : (decide (pyStrip line = "") || strStartsWith (pyStrip line) "#") = true
    · rw [if_pos h1]
    · rw [if_neg h1, if_pos h]
  · intro osEnv line h
    have hc : (decide (pyStrip line = "") || strStartsWith (pyStrip line) "#") = true := by
      rcases h with h | h <;> simp [h]
    unfold parse_env_line
    dsimp only
    rw [if_pos hc]
  · intro fileLines
    induction fileLines with
    | nil => intro osEnv k v h; simpa [parse_env_file] using h
    | cons l rest ih =>
      intro osEnv k v h
      simpa [parse_env_file] using ih _ k v (parse_env_line_preserves osEnv l k v h)

/-- C6 witness: concrete instances of all four behaviours. -/
theorem c6_witness :
    parse_env_line [("A", "1")] "FOO=\"bar\"" = [("A", "1")] ++ [("FOO", "bar")] ∧
    parse_env_line [("A", "1")] "X=${Y}" = [("A", "1")] ∧
    parse_env_line [("A", "1")] "# comment" = [("A", "1")] ∧
    envGet (parse_env_file ["FOO=2"] [("FOO", "1")]) "FOO" = some "1" :=
  ⟨c6_env_file_parsing.1 _ (by decide),
   c6_env_file_parsing.2.1 _ _ (by decide),
   c6_env_file_parsing.2.2.1 _ _ (Or.inr (by decide)),
   c6_env_file_parsing.2.2.2 _ _ _ _ (by decide)⟩

theorem execute_with_retry_aux_succ {E A : Type} (op : Nat → Except E A)
    (delay : ℚ) (r attempt : Nat) (last : Option E) :
    execute_with_retry_aux op delay (r + 1) attempt last =
      (match op attempt with
       | .ok a => (.ok a, [])
       | .error e =>
         if r = 0 then (.error (some e), [])
         else
           let next := execute_with_retry_aux op delay r (attempt + 1) (some e)
           (next.1, delay * 2 ^ attempt :: next.2)) := rfl

theorem execute_with_retry_aux_first_success {E A : Type} (op : Nat → Except E A)
    (delay : ℚ) (a : A) :
    ∀ (k r attempt : Nat) (last : Option E), k < r →
      op (attempt + k) = .ok a →
      (∀ j < k, ∃ e, op (attempt + j) = .error e) →
      execute_with_retry_aux op delay r attempt last =
        (.ok a, (List.range k).map (fun j => delay * 2 ^ (attempt + j))) := by
  intro k
  induction k with
  | zero =>
    intro r attempt last hk hok _
    obtain ⟨r', rfl⟩ := Nat.exists_eq_succ_of_ne_zero (Nat.pos_iff_ne_zero.mp hk)
    rw [Nat.add_zero] at hok
    simp [execute_with_retry_aux, hok]
  | succ k ih =>
    intro r attempt last hk hok hfail
    obtain ⟨r', rfl⟩ := Nat.exists_eq_succ_of_ne_zero
      (Nat.pos_iff_ne_zero.mp (Nat.lt_of_le_of_lt (Nat.zero_le _) hk))
    obtain ⟨e, he⟩ := hfail 0 (Nat.succ_pos k)
    rw [Nat.add_zero] at he
    have hr' : r' ≠ 0 := by omega
    have hnext := ih r' (attempt + 1) (some e) (by omega)
      (by rw [show attempt + 1 + k = attempt + (k + 1) by omega]; exact hok)
      (fun j hj => by
        obtain ⟨e', he'⟩ := hfail (j + 1) (by omega)
        exact ⟨e', by rw [show attempt + 1 + j = attempt + (j + 1) by omega]; exact he'⟩)
    rw [execute_with_retry_aux_succ, he]
    dsimp only
    rw [if_neg hr', hnext]
    refine Prod.ext rfl ?_
    simp only [List.range_succ_eq_map, List.map_cons, List.map_map, Nat.add_zero]
    refine congrArg₂ _ rfl ?_
    refine List.map_congr_left (fun j _ => ?_)
    have hj : attempt + 1 + j = attempt + (j + 1) := by omega
    simp [Function.comp, hj]

theorem execute_with_retry_aux_all_fail {E A : Type} (op : Nat → Except E A)
    (delay : ℚ) (err : Nat → E) :
    ∀ (r attempt : Nat) (last : Option E),
      (∀ j < r + 1, op (attempt + j) = .error (err (attempt + j))) →
      execute_with_retry_aux op delay (r + 1) attempt last =
        ((.error (some (err (attempt + r))) : Except (Option E) A),
          (List.range r).map (fun j => delay * 2 ^ (attempt + j))) := by
  intro r
  induction r with
  | zero =>
    intro attempt last hfail
    have h0 := hfail 0 (by omega)
    rw [Nat.add_zero] at h0
    simp [execute_with_retry_aux, h0]
  | succ r ih =>
    intro attempt last hfail
    have h0 := hfail 0 (by omega)
    rw [Nat.add_zero] at h0
    have hnext := ih (attempt + 1) (some (err attempt))
      (fun j hj => by
        rw [show attempt + 1 + j = attempt + (j + 1) by omega]
        exact hfail (j + 1) (by omega))
    rw [execute_with_retry_aux_succ, h0]
    dsimp only
    rw [if_neg (Nat.succ_ne_zero r), hnext]
    refine Prod.ext ?_ ?_
    · dsimp only
      rw [show attempt + 1 + r = attempt + (r + 1) by omega]
    · dsimp only
      simp only [List.range_succ_eq_map, List.map_cons, List.map_map, Nat.add_zero]
      refine congrArg₂ _ rfl ?_
      refine List.map_congr_left (fun j _ => ?_)
      have hj : attempt + 1 + j = attempt + (j + 1) := by omega
      simp [Function.comp, hj]

/-- C9: `execute_with_retry` returns the operation's result on the first
successful attempt, having slept `delay * 2 ^ attempt` between consecutive
attempts (the recorded sleep list); and when every attempt fails it re-raises
the last failure after `maxAttempts` attempts, with the same back-off
schedule between them. -/
theorem c9_execute_with_retry {E A : Type} (op : Nat → Except E A)
    (attempts : Nat) (delay : ℚ) :
    (∀ (a : A) (k : Nat), k < attempts → op k = .ok a →
        (∀ j < k, ∃ e, op j = .error e) →
        execute_with_retry op attempts delay =
          (.ok a, (List.range k).map (fun j => delay * 2 ^ j))) ∧
    (∀ (err : Nat → E) (r : Nat), attempts = r + 1 →
        (∀ j < attempts, op j = .error (err j)) →
        execute_with_retry op attempts delay =
          (.error (some (err r)), (List.range r).map (fun j => delay * 2 ^ j))) := by
  constructor
  · intro a k hk hok hfail
    have := execute_with_retry_aux_first_success op delay a k attempts 0 none hk
      (by simpa using hok) (fun j hj => by simpa using hfail j hj)
    simpa [execute_with_retry] using this
  · intro err r hattempts hfail
    subst hattempts
    have := execute_with_retry_aux_all_fail op delay err r 0 none
      (fun j hj => by simpa using hfail j hj)
    simpa [execute_with_retry] using this

/-- C9 witness: with three attempts, an operation failing on attempts 1–2 and
succeeding on attempt 3 returns the result having slept `delay·2⁰` then
`delay·2¹`; and an always-failing operation with two attempts raises the last
failure after sleeping `delay·2⁰`. -/
theorem c9_witness :
    execute_with_retry (fun k => if k < 2 then (.error "boom" : Except String Nat) else .ok 42) 3 1 =
      (.ok 42, (List.range 2).map (fun j => (1 : ℚ) * 2 ^ j)) ∧
    execute_with_retry (fun k => (.error (toString k) : Except String Nat)) 2 1 =
      (.error (some (toString 1)), (List.range 1).map (fun j => (1 : ℚ) * 2 ^ j)) :=
  ⟨(c9_execute_with_retry _ 3 1).1 42 2 (by omega) (by simp) (fun j hj => ⟨"boom", by simp [hj]⟩),
   (c9_execute_with_retry _ 2 1).2 (fun k => toString k) 1 rfl (fun j _ => rfl)⟩

/-- C4 counterexample: with a missing SQL source directory the constructor
does raise the configuration error, but the trace shows the connection pool
was initialised — network activity — before the raise, refuting "raised
before any network activity is performed by the constructor". -/
theorem c4_counterexample :
    (ddl_manager_init false true).1 = .error "SQL directory not found" ∧
    InitEvent.poolInit ∈ (ddl_manager_init false true).2 ∧
    (ddl_manager_init false true).2 =
      [InitEvent.poolInit, InitEvent.sqlDirectoryCheck] := by
  refine ⟨rfl, ?_, rfl⟩
  decide

/-- C4 (amended): constructing a `DDLManager` with a missing or DDL-file-free
SQL source directory raises immediately at construction time, but only after
the constructor has initialised the database connection pool — the
configuration error is raised after, not before, the constructor's network
activity. -/
theorem c4_init_raises_after_pool_init (d h : Bool) (hbad : d = false ∨ h = false) :
    (∃ e, (ddl_manager_init d h).1 = Except.error e) ∧
    (ddl_manager_init d h).2 = [InitEvent.poolInit, InitEvent.sqlDirectoryCheck] := by
  constructor
  · cases d with
    | false => exact ⟨"SQL directory not found", rfl⟩
    | true =>
      cases h with
      | false => exact ⟨"No DDL files found", rfl⟩
      | true => rcases hbad with h1 | h1 <;> simp at h1
  · cases d <;> cases h <;> rfl

/-- C4 witness: the missing-directory case. -/
theorem c4_witness :
    (∃ e, (ddl_manager_init false false).1 = Except.error e) ∧
    (ddl_manager_init false false).2 =
      [InitEvent.poolInit, InitEvent.sqlDirectoryCheck] :=
  c4_init_raises_after_pool_init false false (Or.inl rfl)

theorem classifyStatementError_not_applied (s e : String) :
    (classifyStatementError s e).isApplied = false := by
  unfold classifyStatementError
  split_ifs <;> rfl

theorem executeDdlStep_decomp (exec : String → Option String)
    (acc : List String × List StatementOutcome) (s : String) :
    executeDdlStep exec acc s =
      (acc.1 ++ (executeDdlStep exec ([], []) s).1,
       acc.2 ++ (executeDdlStep exec ([], []) s).2) := by
  unfold executeDdlStep
  split_ifs with h
  · cases hx : exec s <;> simp
  · simp

theorem executeDdl_fold_decomp (exec : String → Option String) (stmts : List String) :
    ∀ acc : List String × List StatementOutcome,
      stmts.foldl (executeDdlStep exec) acc =
        (acc.1 ++ (stmts.foldl (executeDdlStep exec) ([], [])).1,
         acc.2 ++ (stmts.foldl (executeDdlStep exec) ([], [])).2) := by
  induction stmts with
  | nil => intro acc; simp
  | cons s rest ih =>
    intro acc
    rw [List.foldl_cons, List.foldl_cons, ih (executeDdlStep exec acc s),
      ih (executeDdlStep exec ([], []) s), executeDdlStep_decomp exec acc s]
    simp [List.append_assoc]

theorem executeDdl_lengths (exec : String → Option String) (stmts : List String) :
    ((stmts.foldl (executeDdlStep exec) ([], [])).2.length =
      (stmts.filter (fun s => pyStrip s != "")).length) ∧
    ((stmts.foldl (executeDdlStep exec) ([], [])).1.length =
      ((stmts.foldl (executeDdlStep exec) ([], [])).2.filter
        (fun o => ! o.isApplied)).length) := by
  induction stmts with
  | nil => simp
  | cons s rest ih =>
    rw [List.foldl_cons, executeDdl_fold_decomp exec rest (executeDdlStep exec ([], []) s)]
    constructor
    · rw [List.length_append, ih.1, List.filter_cons]
      by_cases hp : (pyStrip s != "") = true
      · cases hx : exec s <;> simp [executeDdlStep, hp, hx] <;> omega
      · simp [executeDdlStep, hp]
    · rw [List.length_append, List.filter_append, List.length_append, ih.2]
      by_cases hp : (pyStrip s != "") = true
      · cases hx : exec s with
        | none => simp [executeDdlStep, hp, hx, StatementOutcome.isApplied]
        | some e =>
          simp [executeDdlStep, hp, hx, classifyStatementError_not_applied]
      · simp [executeDdlStep, hp]

/-- C1 counterexample: a two-statement batch whose first statement fails with
an "already exists" condition.  The second statement still executes and the
failure is classified benign (no `Failed` outcome is collected), yet the
aggregate `success` flag is `false`: the error message was appended to
`errors` before the benign classification, so skipped-benign items do count
against `success = (errors == [])`, refuting the claimed
"success iff `Failed` outcomes empty". -/
theorem c1_counterexample :
    (execute_ddl
        (fun s => if s = "CREATE TABLE a (x int);" then some "relation a already exists" else none)
        "CREATE TABLE a (x int);\nCREATE TABLE b (y int);").success = false ∧
    ((execute_ddl
        (fun s => if s = "CREATE TABLE a (x int);" then some "relation a already exists" else none)
        "CREATE TABLE a (x int);\nCREATE TABLE b (y int);").outcomes.filter
      StatementOutcome.isFailed) = [] ∧
    (execute_ddl
        (fun s => if s = "CREATE TABLE a (x int);" then some "relation a already exists" else none)
        "CREATE TABLE a (x int);\nCREATE TABLE b (y int);").outcomes =
      [.skippedBenign "already exists", .applied] := by
  refine ⟨?_, ?_, ?_⟩ <;> decide

/-- C1 (amended): every statement of the batch executes regardless of earlier
failures (one outcome per non-blank statement); a statement failing with an
"already exists" condition (outside the relation-dependency branch) is
classified `skippedBenign`; but every statement error — benign or not — is
appended to the collected `errors` list, and the aggregate `success` flag is
true iff that `errors` list is empty, so skipped-benign items do count
against batch success. -/
theorem c1_execute_ddl_amended (exec : String → Option String) (ddlContent : String) :
    (execute_ddl exec ddlContent).outcomes.length =
      ((split_sql_statements ddlContent).filter (fun s => pyStrip s != "")).length ∧
    (execute_ddl exec ddlContent).success = (execute_ddl exec ddlContent).errors.isEmpty ∧
    (execute_ddl exec ddlContent).errors.length =
      ((execute_ddl exec ddlContent).outcomes.filter (fun o => ! o.isApplied)).length ∧
    (∀ stmt err : String,
        (strContains (strToLower err) "does not exist"
          && strContains (strToLower err) "relation") = false →
        strContains (strToLower err) "already exists" = true →
        classifyStatementError stmt (strToLower err) = .skippedBenign "already exists") := by
  refine ⟨(executeDdl_lengths exec _).1, rfl, (executeDdl_lengths exec _).2, ?_⟩
  intro stmt err h1 h2
  unfold classifyStatementError
  rw [if_neg (by simp [h1]), if_pos h2]

/-- C1 witness: concrete instances of the amended claim's parts. -/
theorem c1_witness :
    (execute_ddl (fun _ => none) "A;\nB;").outcomes.length =
      ((split_sql_statements "A;\nB;").filter (fun s => pyStrip s != "")).length ∧
    classifyStatementError "stmt" (strToLower "relation a ALREADY exists") =
      .skippedBenign "already exists" :=
  ⟨(c1_execute_ddl_amended (fun _ => none) "A;\nB;").1,
   (c1_execute_ddl_amended (fun _ => none) "A;\nB;").2.2.2 "stmt" "relation a ALREADY exists"
     (by decide) (by decide)⟩

/-- C3 counterexample: a function body quoted with a non-empty tag
(`$tag$ ... $tag$`) contains no `$$` digraph, so the tracker never enters a
dollar-quoted block and the splitter cuts at the internal `;`, yielding two
statements where the claim's "any tag including the empty tag" tracking
predicts a single statement. -/
theorem c3_counterexample :
    split_sql_statements "AS $tag$\nx;\n$tag$;" = ["AS $tag$\nx;", "$tag$;"] ∧
    (split_sql_statements "AS $tag$\nx;\n$tag$;").length ≠ 1 := by
  constructor
  · decide
  · decide

/-- C3 (amended): a statement boundary is recognised only at a line ending in
`;` while the cursor is not inside a dollar-quoted block, where the tracker
recognises only blocks delimited by the literal `$$` digraph (a `$tag$`
delimiter with a non-empty tag is not tracked); no statement is emitted on a
line that leaves the cursor inside a block, nor on a line whose stripped text
does not end in `;`; and for the multiline `DO $$ ... END $$;` input the
splitter yields exactly one statement, the internal semicolons causing no
split. -/
theorem c3_split_amended :
    (∀ (st : SplitState) (line : String),
        (processSplitLine st line).dollar.in_dollar_block = true →
        (processSplitLine st line).statements = st.statements) ∧
    (∀ (st : SplitState) (line : String),
        strEndsWith (pyStrip line) ";" = false →
        (processSplitLine st line).statements = st.statements) ∧
    split_sql_statements "DO $$\nBEGIN\n  ...;\n  ...;\nEND $$;" =
      ["DO $$\nBEGIN\n...;\n...;\nEND $$;"] := by
  refine ⟨?_, ?_, by decide⟩
  · intro st line h
    unfold processSplitLine at h ⊢
    dsimp only at h ⊢
    split_ifs at h ⊢ <;> first | rfl | (exfalso; simp_all)
  · intro st line h
    unfold processSplitLine
    dsimp only
    split_ifs <;> first | rfl | (exfalso; simp_all)

/-- C3 witness: a `;`-terminated line arriving while the cursor is inside a
dollar block emits nothing, and a line not ending in `;` emits nothing. -/
theorem c3_witness :
    (processSplitLine
        { statements := [], current_statement := "",
          dollar := { in_dollar_block := true, dollar_tag := some "z" } }
        "x;").statements = [] ∧
    (processSplitLine
        { statements := ["s"], current_statement := "c",
          dollar := { in_dollar_block := false, dollar_tag := none } }
        "abc").statements = ["s"] :=
  ⟨c3_split_amended.1 _ "x;" (by decide), c3_split_amended.2.1 _ "abc" (by decide)⟩

theorem charListLt_asymm : ∀ (a b : List Char),
    charListLt a b = true → charListLt b a = false
  | [], [] => by simp [charListLt]
  | [], _ :: _ => fun _ => rfl
  | _ :: _, [] => fun h => absurd h (by simp [charListLt])
  | x :: xs, y :: ys => by
    intro h
    unfold charListLt at h ⊢
    rcases lt_trichotomy x y with h1 | h1 | h1
    · rw [if_neg (asymm h1), if_pos h1]
    · subst h1
      rw [if_neg (lt_irrefl x), if_neg (lt_irrefl x)] at h ⊢
      exact charListLt_asymm xs ys h
    · rw [if_neg (asymm h1), if_pos h1] at h
      exact absurd h (by simp)

theorem charListLt_le_trans : ∀ (a b c : List Char),
    charListLt b a = false → charListLt c b = false → charListLt c a = false
  | [], _, c => fun _ _ => by cases c <;> rfl
  | _ :: _, [], _ => fun h1 _ => absurd h1 (by simp [charListLt])
  | _ :: _, _ :: _, [] => fun _ h2 => absurd h2 (by simp [charListLt])
  | x :: xs, y :: ys, z :: zs => by
    intro h1 h2
    have hyx : ¬ y < x := by
      intro hc
      rw [show charListLt (y :: ys) (x :: xs) = true by
        unfold charListLt; rw [if_pos hc]] at h1
      exact absurd h1 (by simp)
    have hzy : ¬ z < y := by
      intro hc
      rw [show charListLt (z :: zs) (y :: ys) = true by
        unfold charListLt; rw [if_pos hc]] at h2
      exact absurd h2 (by simp)
    unfold charListLt
    rcases lt_trichotomy x y with hxy | hxy | hxy
    · have hxz : x < z := lt_of_lt_of_le hxy (not_lt.mp hzy)
      rw [if_neg (asymm hxz), if_pos hxz]
    · subst hxy
      unfold charListLt at h1 h2
      rw [if_neg (lt_irrefl x), if_neg (lt_irrefl x)] at h1
      rcases lt_trichotomy x z with hxz | hxz | hxz
      · rw [if_neg (asymm hxz), if_pos hxz]
      · subst hxz
        rw [if_neg (lt_irrefl x), if_neg (lt_irrefl x)] at h2 ⊢
        exact charListLt_le_trans xs ys zs h1 h2
      · exact absurd hxz hzy
    · exact absurd hxy hyx

theorem dictInsert_mem : ∀ (l : List (String × String)) (k v : String)
    (z : String × String), z ∈ dictInsert l k v → z ∈ l ∨ z = (k, v)
  | [], k, v, z => by
    intro h
    simp [dictInsert] at h
    exact Or.inr h
  | (k', v') :: rest, k, v, z => by
    intro h
    unfold dictInsert at h
    split_ifs at h with hk
    · rcases List.mem_cons.mp h with h | h
      · exact Or.inr h
      · exact Or.inl (List.mem_cons_of_mem _ h)
    · rcases List.mem_cons.mp h with h | h
      · exact Or.inl (h ▸ List.mem_cons_self _ _)
      · rcases dictInsert_mem rest k v z h with h | h
        · exact Or.inl (List.mem_cons_of_mem _ h)
        · exact Or.inr h

theorem getDdlFilesStep_no_monolith (allFiles : List String)
    (hsplit : (allFiles.contains "steam_ddl_api.sql"
      || allFiles.contains "steam_ddl_file.sql") = true)
    (acc : List (String × String)) (filename k : String)
    (hacc : (k, "steam_ddl.sql") ∉ acc) :
    (k, "steam_ddl.sql") ∉ getDdlFilesStep allFiles acc filename := by
  unfold getDdlFilesStep
  dsimp only
  by_cases h1 : (decide (filename = "steam_ddl.sql")
      && (allFiles.contains "steam_ddl_api.sql"
        || allFiles.contains "steam_ddl_file.sql")) = true
  · rw [if_pos h1]; exact hacc
  · rw [if_neg h1]
    by_cases h2 : (decide (filename = "steam_file_dimensions_ddl.sql")
        && allFiles.contains "steam_ddl_file.sql") = true
    · rw [if_pos h2]; exact hacc
    · rw [if_neg h2]
      have hfn : filename ≠ "steam_ddl.sql" := by
        intro heq
        apply h1
        rw [heq]
        simpa using hsplit
      cases hord : executionOrderOf filename with
      | some n =>
        dsimp only
        intro hmem
        rcases dictInsert_mem _ _ _ _ hmem with hin | heq
        · exact hacc hin
        · exact hfn (congrArg Prod.snd heq).symm
      | none =>
        dsimp only
        split_ifs <;>
          first
            | exact hacc
            | (intro hmem
               rcases dictInsert_mem _ _ _ _ hmem with hin | heq
               · exact hacc hin
               · exact hfn (congrArg Prod.snd heq).symm)

theorem get_ddl_files_no_monolith (allFiles : List String)
    (hsplit : (allFiles.contains "steam_ddl_api.sql"
      || allFiles.contains "steam_ddl_file.sql") = true) (k : String) :
    (k, "steam_ddl.sql") ∉ get_ddl_files allFiles := by
  have main : ∀ (files : List String) (acc : List (String × String)),
      (k, "steam_ddl.sql") ∉ acc →
      (k, "steam_ddl.sql") ∉ files.foldl (getDdlFilesStep allFiles) acc := by
    intro files
    induction files with
    | nil => intro acc h; simpa using h
    | cons f rest ih =>
      intro acc h
      rw [List.foldl_cons]
      exact ih _ (getDdlFilesStep_no_monolith allFiles hsplit acc f k h)
  exact main _ [] (by simp)

theorem insertByKey_mem : ∀ (x : String × String) (l : List (String × String))
    (z : String × String), z ∈ insertByKey x l → z = x ∨ z ∈ l
  | x, [], z => by
    intro h
    simp [insertByKey] at h
    exact Or.inl h
  | x, y :: ys, z => by
    intro h
    unfold insertByKey at h
    split_ifs at h with hc
    · rcases List.mem_cons.mp h with h | h
      · exact Or.inr (h ▸ List.mem_cons_self _ _)
      · rcases insertByKey_mem x ys z h with h | h
        · exact Or.inl h
        · exact Or.inr (List.mem_cons_of_mem _ h)
    · rcases List.mem_cons.mp h with h | h
      · exact Or.inl h
      · exact Or.inr h

theorem pairwise_insertByKey (x : String × String) :
    ∀ l : List (String × String),
      l.Pairwise (fun a b => strLt b.1 a.1 = false) →
      (insertByKey x l).Pairwise (fun a b => strLt b.1 a.1 = false)
  | [], _ => by simp [insertByKey]
  | y :: ys, h => by
    rcases List.pairwise_cons.mp h with ⟨hy, hys⟩
    unfold insertByKey
    split_ifs with hc
    · refine List.pairwise_cons.mpr ⟨?_, pairwise_insertByKey x ys hys⟩
      intro z hz
      rcases insertByKey_mem x ys z hz with rfl | hz
      · exact charListLt_asymm _ _ hc
      · exact hy z hz
    · refine List.pairwise_cons.mpr ⟨?_, h⟩
      intro z hz
      rcases List.mem_cons.mp hz with rfl | hz
      · exact Bool.not_eq_true _ ▸ (by simpa using hc)
      · exact charListLt_le_trans x.1.data y.1.data z.1.data
          (by simpa using hc) (hy z hz)

theorem sortByKey_pairwise (l : List (String × String)) :
    (sortByKey l).Pairwise (fun a b => strLt b.1 a.1 = false) := by
  induction l with
  | nil => simp [sortByKey]
  | cons x xs ih => exact pairwise_insertByKey x _ ih

/-- C2 counterexample: with the split steam files plus one further steam L0
source without an ordering key, the key of the unordered source
(`steam_l0`) is a proper lexical prefix of the ordered keys
(`steam_l0_00_…`, `steam_l0_01_…`), so `create_all_tables` executes the
source *without* an ordering key first — refuting "sources carrying an
explicit ordering key execute before those without one". -/
theorem c2_counterexample :
    create_all_tables_order ["steam_xx_ddl.sql", "steam_ddl_api.sql", "steam_ddl_file.sql"] =
      [("steam_l0", "steam_xx_ddl.sql"),
       ("steam_l0_00_steam_ddl_api", "steam_ddl_api.sql"),
       ("steam_l0_01_steam_ddl_file", "steam_ddl_file.sql")] ∧
    executionOrderOf "steam_xx_ddl.sql" = none ∧
    executionOrderOf "steam_ddl_api.sql" = some 0 := by
  refine ⟨by decide, rfl, rfl⟩

/-- C2 (amended): `get_ddl_files` does skip the deprecated monolithic
`steam_ddl.sql` whenever a split file exists; and `create_all_tables`
executes the whole source set in ascending lexical order of the composite
keys (`platform_layer` for unordered sources, `platform_layer_NN_stem` for
sources with an explicit ordering key).  Because the bare `platform_layer`
key is a lexical prefix of its `NN`-suffixed extensions, an unordered source
for the same platform and layer executes *before* the explicitly ordered
ones (not after), while among the ordered sources ascending order key then
stem decides. -/
theorem c2_ordering_amended :
    (∀ allFiles : List String,
        (allFiles.contains "steam_ddl_api.sql"
          || allFiles.contains "steam_ddl_file.sql") = true →
        ∀ k, (k, "steam_ddl.sql") ∉ get_ddl_files allFiles) ∧
    (∀ allFiles : List String,
        (create_all_tables_order allFiles).Pairwise
          (fun a b => strLt b.1 a.1 = false)) ∧
    create_all_tables_order ["steam_xx_ddl.sql", "steam_ddl_api.sql", "steam_ddl_file.sql"] =
      [("steam_l0", "steam_xx_ddl.sql"),
       ("steam_l0_00_steam_ddl_api", "steam_ddl_api.sql"),
       ("steam_l0_01_steam_ddl_file", "steam_ddl_file.sql")] := by
  refine ⟨get_ddl_files_no_monolith, fun allFiles => sortByKey_pairwise _, by decide⟩

/-- C2 witness: the monolithic file is dropped when the split files are
present, and the concrete execution order is sorted ascending by key. -/
theorem c2_witness :
    ("steam_l0", "steam_ddl.sql") ∉
      get_ddl_files ["steam_ddl.sql", "steam_ddl_api.sql", "steam_ddl_file.sql"] ∧
    (create_all_tables_order ["steam_ddl_api.sql", "steam_ddl_file.sql"]).Pairwise
      (fun a b => strLt b.1 a.1 = false) :=
  ⟨c2_ordering_amended.1 ["steam_ddl.sql", "steam_ddl_api.sql", "steam_ddl_file.sql"]
      (by decide) "steam_l0",
   c2_ordering_amended.2.1 ["steam_ddl_api.sql", "steam_ddl_file.sql"]⟩

theorem validate_business_rule_not_critical (n r : String) (cols : List ColumnInfo) :
    ∀ i ∈ validate_business_rule n r cols, i.severity ≠ Severity.critical := by
  intro i hi
  unfold validate_business_rule at hi
  dsimp only at hi
  split_ifs at hi with h1 h2 h3
  · rcases hfind : cols.find? (fun c => c.name == "payload") with _ | col <;>
      rw [hfind] at hi <;> dsimp only at hi
    · simp at hi
      subst hi
      simp
    · split_ifs at hi
      · simp at hi
        subst hi
        simp
      · simp at hi
  · simp at hi
    subst hi
    simp
  · rcases hsb : shouldBeSearch r.data with _ | ⟨cn, v⟩ <;> rw [hsb] at hi
    · simp at hi
    · simp at hi
      subst hi
      simp
  · simp at hi

theorem mem_foldl_append {α β : Type} (f : α → List β) :
    ∀ (l : List α) (init : List β) (b : β),
      b ∈ l.foldl (fun acc r => acc ++ f r) init → b ∈ init ∨ ∃ r ∈ l, b ∈ f r := by
  intro l
  induction l with
  | nil => intro init b h; exact Or.inl (by simpa using h)
  | cons a rest ih =>
    intro init b h
    rw [List.foldl_cons] at h
    rcases ih (init ++ f a) b h with h2 | ⟨r, hr, hb⟩
    · rcases List.mem_append.mp h2 with h3 | h3
      · exact Or.inl h3
      · exact Or.inr ⟨a, List.mem_cons_self a rest, h3⟩
    · exact Or.inr ⟨r, List.mem_cons_of_mem a hr, hb⟩

theorem checkCompatibilityMain_no_critical (n : String) (req : TableRequirements)
    (cols : List ColumnInfo) :
    ∀ i ∈ (checkCompatibilityMain n req cols).issues, i.severity ≠ Severity.critical := by
  intro i hi
  simp only [checkCompatibilityMain] at hi
  rcases List.mem_append.mp hi with h | h
  · rcases List.mem_append.mp h with h | h
    · rcases List.mem_append.mp h with h | h
      · rcases List.mem_append.mp h with h | h
        · rcases List.mem_map.mp h with ⟨c, _, rfl⟩; simp
        · rcases List.mem_map.mp h with ⟨c, _, rfl⟩; simp
      · rcases List.mem_map.mp h with ⟨c, _, rfl⟩; simp
    · rcases List.mem_map.mp h with ⟨t, _, rfl⟩; simp
  · rcases mem_foldl_append _ _ _ _ h with h0 | ⟨r, _, hr⟩
    · simp at h0
    · exact validate_business_rule_not_critical n r cols i hr

theorem typeMismatchesOf_eq_nil (ct : List (String × String)) (cols : List ColumnInfo)
    (h : ∀ p ∈ ct, ∀ col ∈ cols, col.name = p.1 →
        types_compatible p.2 col.data_type = true) :
    typeMismatchesOf ct cols = [] := by
  unfold typeMismatchesOf
  induction ct with
  | nil => rfl
  | cons p rest ih =>
    rw [List.foldl_cons]
    have hstep : (match cols.find? (fun c => c.name == p.1) with
        | some col =>
          if !types_compatible p.2 col.data_type then
            ([] : List (String × String × String)) ++ [(p.1, p.2, col.data_type)]
          else []
        | none => []) = [] := by
      rcases hfind : cols.find? (fun c => c.name == p.1) with _ | col
      · rw [hfind]
      · rw [hfind]
        have hcol : col ∈ cols := List.mem_of_find?_eq_some hfind
        have hname : col.name = p.1 := by simpa using List.find?_some hfind
        have := h p (List.mem_cons_self p rest) col hcol hname
        simp [this]
    rw [hstep]
    exact ih (fun q hq => h q (List.mem_cons_of_mem p hq))

/-- C7: in the main path of `check_table_compatibility` (requirements defined
and table found), `valid = (no critical issues) ∧ (missing required columns
empty)`; a missing required column appears in `missing_columns` and forces
`valid = false`; an extra undeclared column appears in `extra_columns` with a
warning-severity issue and never by itself flips `valid` to false — when all
required columns are present the report is valid whatever extra columns
exist. -/
theorem c7_table_compatibility (n : String) (req : TableRequirements)
    (cols : List ColumnInfo) :
    (check_table_compatibility n (some req) (some cols) =
      checkCompatibilityMain n req cols) ∧
    ((checkCompatibilityMain n req cols).valid =
      (((checkCompatibilityMain n req cols).issues.filter
          (fun i => i.severity == Severity.critical)).isEmpty
        && (checkCompatibilityMain n req cols).missing_columns.isEmpty)) ∧
    (∀ c, c ∈ req.required_columns → c ∉ cols.map (fun c => c.name) →
        c ∈ (checkCompatibilityMain n req cols).missing_columns ∧
        (checkCompatibilityMain n req cols).valid = false) ∧
    (∀ c, c ∈ cols.map (fun c => c.name) → c ∉ req.required_columns →
        c ∉ req.optional_columns →
        c ∈ (checkCompatibilityMain n req cols).extra_columns ∧
        ∃ i ∈ (checkCompatibilityMain n req cols).issues,
          i.severity = Severity.warning ∧ i.category = "extra_column" ∧
          i.column_name = some c) ∧
    ((∀ c ∈ req.required_columns, c ∈ cols.map (fun c => c.name)) →
        (checkCompatibilityMain n req cols).valid = true) := by
  have hmiss : (checkCompatibilityMain n req cols).missing_columns =
      req.required_columns.dedup.filter
        (fun c => !((cols.map (fun c => c.name)).contains c)) := rfl
  have hextra : (checkCompatibilityMain n req cols).extra_columns =
      (cols.map (fun c => c.name)).dedup.filter
        (fun c => !(req.required_columns.dedup.contains c
          || req.optional_columns.dedup.contains c)) := rfl
  have hvalid : (checkCompatibilityMain n req cols).valid =
      (((checkCompatibilityMain n req cols).issues.filter
          (fun i => i.severity == Severity.critical)).isEmpty
        && (checkCompatibilityMain n req cols).missing_columns.isEmpty) := rfl
  refine ⟨rfl, hvalid, ?_, ?_, ?_⟩
  · intro c hc hn
    have hcm : c ∈ (checkCompatibilityMain n req cols).missing_columns := by
      rw [hmiss]
      refine List.mem_filter.mpr ⟨List.mem_dedup.mpr hc, ?_⟩
      simp [hn]
    refine ⟨hcm, ?_⟩
    have hne : (checkCompatibilityMain n req cols).missing_columns.isEmpty = false := by
      simp [List.isEmpty_iff, List.ne_nil_of_mem hcm]
    rw [hvalid, hne, Bool.and_false]
  · intro c hcA hcR hcO
    have hmem : c ∈ (cols.map (fun c => c.name)).dedup.filter
        (fun c => !(req.required_columns.dedup.contains c
          || req.optional_columns.dedup.contains c)) := by
      refine List.mem_filter.mpr ⟨List.mem_dedup.mpr hcA, ?_⟩
      have h1 : c ∉ req.required_columns.dedup := fun h => hcR (List.mem_dedup.mp h)
      have h2 : c ∉ req.optional_columns.dedup := fun h => hcO (List.mem_dedup.mp h)
      simp [h1, h2]
    refine ⟨by rw [hextra]; exact hmem, ?_⟩
    refine ⟨{ severity := Severity.warning, category := "extra_column",
              message := "Unexpected column '" ++ c ++ "' found",
              table_name := n, column_name := some c }, ?_, rfl, rfl, rfl⟩
    show _ ∈ (checkCompatibilityMain n req cols).issues
    simp only [checkCompatibilityMain, List.mem_append]
    exact Or.inl (Or.inl (Or.inr (List.mem_map.mpr ⟨c, hmem, rfl⟩)))
  · intro hsub
    have hmiss0 : (checkCompatibilityMain n req cols).missing_columns = [] := by
      rw [hmiss]
      refine List.filter_eq_nil_iff.mpr ?_
      intro a ha
      have := hsub a (List.mem_dedup.mp ha)
      simp [this]
    have hcrit : ((checkCompatibilityMain n req cols).issues.filter
        (fun i => i.severity == Severity.critical)) = [] := by
      refine List.filter_eq_nil_iff.mpr ?_
      intro i hi
      simpa using checkCompatibilityMain_no_critical n req cols i hi
    rw [hvalid, hcrit, hmiss0]
    rfl

/-- C7 witness: a table missing the required column `b` is invalid and lists
`b`; an undeclared extra column `z` is reported as a warning; with all
required columns present and an extra column the report is still valid. -/
theorem c7_witness :
    ("b" ∈ (checkCompatibilityMain "t"
        { required_columns := ["a", "b"], optional_columns := ["c"],
          column_types := [], business_rules := [] }
        [{ name := "a", data_type := "text" }, { name := "z", data_type := "text" }]).missing_columns ∧
      (checkCompatibilityMain "t"
        { required_columns := ["a", "b"], optional_columns := ["c"],
          column_types := [], business_rules := [] }
        [{ name := "a", data_type := "text" }, { name := "z", data_type := "text" }]).valid = false) ∧
    ("z" ∈ (checkCompatibilityMain "t"
        { required_columns := ["a", "b"], optional_columns := ["c"],
          column_types := [], business_rules := [] }
        [{ name := "a", data_type := "text" }, { name := "z", data_type := "text" }]).extra_columns) ∧
    (checkCompatibilityMain "t"
        { required_columns := ["a"], optional_columns := [],
          column_types := [], business_rules := [] }
        [{ name := "a", data_type := "text" }, { name := "z", data_type := "text" }]).valid = true :=
  ⟨(c7_table_compatibility "t" _ _).2.2.1 "b" (by decide) (by decide),
   ((c7_table_compatibility "t" _ _).2.2.2.1 "z" (by decide) (by decide) (by decide)).1,
   (c7_table_compatibility "t" _ _).2.2.2.2 (by decide)⟩

/-- C8: in the main path of `check_table_compatibility`, the compatibility
score equals `0.7·(T − M)/T + 0.3·max 0 (1 − 0.2·K)` where `T` is the number
of (distinct) required columns, `M` the number of missing required columns
and `K` the number of type mismatches; it is defined as `1` when there are no
required columns; and it equals `1` when the actual columns exactly match the
required columns and every declared column type is compatible. -/
theorem c8_compatibility_score (n : String) (req : TableRequirements)
    (cols : List ColumnInfo) :
    (check_table_compatibility n (some req) (some cols) =
      checkCompatibilityMain n req cols) ∧
    (req.required_columns.dedup.length > 0 →
      (checkCompatibilityMain n req cols).compatibility_score =
        (7 / 10 : ℚ) * (((req.required_columns.dedup.length : ℚ)
            - ((checkCompatibilityMain n req cols).missing_columns.length : ℚ))
          / (req.required_columns.dedup.length : ℚ))
        + (3 / 10 : ℚ) * max 0 (1 - (1 / 5 : ℚ)
            * ((checkCompatibilityMain n req cols).type_mismatches.length : ℚ))) ∧
    (req.required_columns.dedup.length = 0 →
      (checkCompatibilityMain n req cols).compatibility_score = 1) ∧
    ((∀ c, c ∈ cols.map (fun c => c.name) ↔ c ∈ req.required_columns) →
      (∀ p ∈ req.column_types, ∀ col ∈ cols, col.name = p.1 →
          types_compatible p.2 col.data_type = true) →
      (checkCompatibilityMain n req cols).compatibility_score = 1) := by
  have hmiss : (checkCompatibilityMain n req cols).missing_columns =
      req.required_columns.dedup.filter
        (fun c => !((cols.map (fun c => c.name)).contains c)) := rfl
  have hmm : (checkCompatibilityMain n req cols).missing_columns.filter
      (fun c => req.required_columns.dedup.contains c) =
      (checkCompatibilityMain n req cols).missing_columns := by
    refine List.filter_eq_self.mpr ?_
    intro a ha
    rw [hmiss] at ha
    have := (List.mem_filter.mp ha).1
    simp [this]
  have htm : (checkCompatibilityMain n req cols).type_mismatches =
      typeMismatchesOf req.column_types cols := rfl
  have hscore : (checkCompatibilityMain n req cols).compatibility_score =
      (if req.required_columns.dedup.length > 0 then
        ((req.required_columns.dedup.length : ℚ)
            - (((checkCompatibilityMain n req cols).missing_columns.filter
                (fun c => req.required_columns.dedup.contains c)).length : ℚ))
          / (req.required_columns.dedup.length : ℚ) * (7 / 10)
        + max 0 (1 - ((checkCompatibilityMain n req cols).type_mismatches.length : ℚ)
            * (1 / 5)) * (3 / 10)
      else 1) := rfl
  refine ⟨rfl, ?_, ?_, ?_⟩
  · intro hT
    rw [hscore, if_pos hT, hmm]
    have hmax : max (0 : ℚ)
        (1 - ((checkCompatibilityMain n req cols).type_mismatches.length : ℚ) * (1 / 5)) =
        max 0 (1 - (1 / 5 : ℚ)
          * ((checkCompatibilityMain n req cols).type_mismatches.length : ℚ)) := by
      rw [mul_comm]
    rw [hmax]
    ring
  · intro hT
    rw [hscore, if_neg (by omega)]
  · intro hcolumns htypes
    have hmiss0 : (checkCompatibilityMain n req cols).missing_columns = [] := by
      rw [hmiss]
      refine List.filter_eq_nil_iff.mpr ?_
      intro a ha
      have := (hcolumns a).mpr (List.mem_dedup.mp ha)
      simp [this]
    have htm0 : (checkCompatibilityMain n req cols).type_mismatches = [] := by
      rw [htm]
      exact typeMismatchesOf_eq_nil _ _ htypes
    rw [hscore]
    rcases Nat.eq_zero_or_pos req.required_columns.dedup.length with h0 | hpos
    · rw [if_neg (by omega)]
    · rw [if_pos hpos, hmm, hmiss0, htm0]
      have hne : ((req.required_columns.dedup.length : ℚ)) ≠ 0 :=
        Nat.cast_ne_zero.mpr (by omega)
      simp [div_self hne]
      norm_num

/-- C8 witness: a perfectly matching table scores exactly 1, and a table with
no required columns scores 1 by definition. -/
theorem c8_witness :
    (checkCompatibilityMain "t"
        { required_columns := ["a"], optional_columns := [],
          column_types := [("a", "bigint")], business_rules := [] }
        [{ name := "a", data_type := "int8" }]).compatibility_score = 1 ∧
    (checkCompatibilityMain "t"
        { required_columns := [], optional_columns := ["c"],
          column_types := [], business_rules := [] }
        [{ name := "z", data_type := "text" }]).compatibility_score = 1 :=
  ⟨(c8_compatibility_score "t" _ _).2.2.2 (fun _ => Iff.rfl) (by decide),
   (c8_compatibility_score "t" _ _).2.2.1 rfl⟩
